import Mathlib

/-!
Shallow embedding of the transport-facing core of the go-coap repository:
the pooled datagram (UDP) message with its message-ID and message-type
fields, the bounded object pool around it, and the UDP and DTLS session
teardown logic. Definitions are translated from the Go sources; parts of
the repository that live outside the given sources (the udp message type
constants, the codes package, the embedded generic message container) are
modelled from the specification and say so in their doc comments.
-/

/-- Modelled from the spec: wire value of the Confirmable datagram type.
The Type constants live in the udp message package, outside the given
sources; the spec fixes a 2-bit wire type field and lists the four types
in the order Confirmable, NonConfirmable, Acknowledgement, Reset. -/
def udpConfirmable : Nat := 0

/-- Modelled from the spec: wire value of the NonConfirmable datagram type. -/
def udpNonConfirmable : Nat := 1

/-- Modelled from the spec: wire value of the Acknowledgement datagram type. -/
def udpAcknowledgement : Nat := 2

/-- Modelled from the spec: wire value of the Reset datagram type. -/
def udpResetType : Nat := 3

/-- Modelled from the spec: the empty message code (codes.Empty, wire code 0),
defined in the codes package outside the given sources. -/
def codesEmpty : Nat := 0

/-- Modelled from the spec: the embedded generic message container
(pool.Message of the message pool package, outside the given sources):
code, optional token, ordered options, optional body, and its own
modified flag. Byte payloads are abstracted to lists of naturals. -/
structure BaseMessage where
  code : Nat
  token : Option (List Nat)
  options : List (Nat × List Nat)
  body : Option (List Nat)
  modified : Bool
deriving DecidableEq, Repr

/-- Modelled from the spec: a fresh embedded container is empty and unmodified. -/
def BaseMessage.empty : BaseMessage :=
  { code := codesEmpty, token := none, options := [], body := none, modified := false }

/-- Modelled from the spec: Reset on the embedded container restores it to empty. -/
def BaseMessage.Reset (_ : BaseMessage) : BaseMessage := BaseMessage.empty

/-- A scratch byte buffer, abstracted to its length and capacity. -/
structure Buf where
  len : Nat
  cap : Nat
deriving DecidableEq, Repr

/-- The buffers a freshly constructed message carries: make([]byte, 256). -/
def baselineBuf : Buf := { len := 256, cap := 256 }

/-- const maxMessagePool = 10240 (datagram pool source). -/
def maxMessagePool : Int := 10240

/-- const maxMessageBufferSize = 2048 (datagram pool source). -/
def maxMessageBufferSize : Nat := 2048

/-- The pooled datagram Message: embeds the generic container and adds the
optional message-ID (a nil-able pointer in the source), the message type,
the two scratch buffers, the execution context (abstracted to an optional
identifier, none meaning nil) and the local dirty flag. -/
structure Message where
  base : BaseMessage
  messageID : Option Nat
  typ : Nat
  rawData : Buf
  rawMarshalData : Buf
  ctx : Option Nat
  isModified : Bool
deriving DecidableEq, Repr

/-- Reset of the pooled datagram Message: resets the embedded container,
clears the message-ID pointer, sets the type to NonConfirmable, shrinks
either scratch buffer to the 256-byte baseline when its capacity exceeds
maxMessageBufferSize, and clears the local dirty flag. The context field
is not touched here (it is cleared separately by ReleaseMessage). -/
def Message.Reset (r : Message) : Message :=
  { base := r.base.Reset
    messageID := none
    typ := udpNonConfirmable
    rawData := if maxMessageBufferSize < r.rawData.cap then baselineBuf else r.rawData
    rawMarshalData :=
      if maxMessageBufferSize < r.rawMarshalData.cap then baselineBuf else r.rawMarshalData
    ctx := r.ctx
    isModified := false }

/-- SetMessageID stores the id and marks the message dirty. -/
def Message.SetMessageID (r : Message) (mid : Nat) : Message :=
  { r with messageID := some mid, isModified := true }

/-- UpsertMessageID returns the already assigned id without overwriting it,
and otherwise assigns mid and returns it; it does not touch the dirty flag.
The mutated receiver is returned as the second component. -/
def Message.UpsertMessageID (r : Message) (mid : Nat) : Nat × Message :=
  match r.messageID with
  | some v => (v, r)
  | none => (mid, { r with messageID := some mid })

/-- MessageID dereferences the stored id and panics when it is nil; the
panic is modelled as none, so none is the loud-failure outcome and is
distinct from every returned value, in particular from some 0. -/
def Message.MessageID (r : Message) : Option Nat := r.messageID

/-- SetType stores the message type and marks the message dirty. -/
def Message.SetType (r : Message) (t : Nat) : Message :=
  { r with typ := t, isModified := true }

/-- IsModified is the logical OR of the local dirty flag and the embedded
container dirty flag. -/
def Message.IsModified (r : Message) : Bool :=
  r.isModified || r.base.modified

/-- IsSeparate: code is Empty, token is nil, type is Acknowledgement, the
option list has length zero, and the body is nil. -/
def Message.IsSeparate (r : Message) : Bool :=
  decide (r.base.code = codesEmpty) && decide (r.base.token = none) &&
    decide (r.typ = udpAcknowledgement) && decide (r.base.options.length = 0) &&
    decide (r.base.body = none)

/-- The process-wide pool state: the atomic live-in-pool counter (an int32
in the source, modelled as Int so that going negative would be visible)
and the free list held by the sync.Pool. -/
structure PoolState where
  currentMessagesInPool : Int
  freeList : List Message
deriving DecidableEq, Repr

/-- The initial pool state: counter zero, no pooled instances. -/
def initialPool : PoolState := { currentMessagesInPool := 0, freeList := [] }

/-- The Message AcquireMessage constructs when the pool is empty. -/
def newMessage (ctx : Nat) : Message :=
  { base := BaseMessage.empty
    messageID := none
    typ := udpConfirmable
    rawData := baselineBuf
    rawMarshalData := baselineBuf
    ctx := some ctx
    isModified := false }

/-- AcquireMessage: pops a free instance if one exists (decrementing the
counter) or constructs a fresh one; either way it attaches the given
context before returning. -/
def AcquireMessage (ctx : Nat) (s : PoolState) : Message × PoolState :=
  match s.freeList with
  | [] => (newMessage ctx, s)
  | r :: rest =>
      ({ r with ctx := some ctx },
       { currentMessagesInPool := s.currentMessagesInPool - 1, freeList := rest })

/-- ReleaseMessage: when the counter is at or above maxMessagePool the
instance is discarded untouched; otherwise the counter is incremented, the
message is Reset, its context cleared, and it is pushed onto the free
list. The second component is the final state of the passed instance. -/
def ReleaseMessage (s : PoolState) (req : Message) : PoolState × Message :=
  if maxMessagePool ≤ s.currentMessagesInPool then (s, req)
  else
    let req2 : Message := { req.Reset with ctx := none }
    ({ currentMessagesInPool := s.currentMessagesInPool + 1,
       freeList := req2 :: s.freeList }, req2)

/-- One sequential pool operation: an acquire (with the context it passes)
or a release of some caller-held message. -/
inductive PoolOp where
  | acquire (ctx : Nat)
  | release (m : Message)
deriving Repr

/-- Effect of one pool operation on the pool state. -/
def PoolState.step (s : PoolState) : PoolOp → PoolState
  | .acquire ctx => (AcquireMessage ctx s).2
  | .release m => (ReleaseMessage s m).1

/-- Run a sequential sequence of pool operations from a state. -/
def runOps (s : PoolState) (ops : List PoolOp) : PoolState :=
  ops.foldl PoolState.step s

/-- A message as ReleaseMessage stores it: id cleared, both dirty flags
clear, context cleared. -/
def MsgClean (m : Message) : Prop :=
  m.messageID = none ∧ m.isModified = false ∧ m.base.modified = false ∧ m.ctx = none

/-- The pool invariant: the counter equals the free list length (so it is
never negative), it never exceeds the cap, and every pooled instance has
been reset. -/
def PoolInv (s : PoolState) : Prop :=
  s.currentMessagesInPool = (s.freeList.length : Int) ∧
    s.currentMessagesInPool ≤ maxMessagePool ∧
    ∀ m ∈ s.freeList, MsgClean m

lemma poolInv_initial : PoolInv initialPool := by
  refine ⟨rfl, by norm_num [initialPool, maxMessagePool], ?_⟩
  intro m hm
  simp [initialPool] at hm

lemma poolInv_step (s : PoolState) (op : PoolOp) (h : PoolInv s) : PoolInv (s.step op) := by
  obtain ⟨hlen, hcap, hclean⟩ := h
  cases op with
  | acquire ctx =>
      cases hf : s.freeList with
      | nil =>
          simp only [PoolState.step, AcquireMessage, hf]
          exact ⟨by simpa [hf] using hlen, hcap, by simp [hf] at hclean ⊢⟩
      | cons r rest =>
          simp only [PoolState.step, AcquireMessage, hf]
          refine ⟨?_, ?_, ?_⟩
          · show s.currentMessagesInPool - 1 = (rest.length : Int)
            rw [hlen, hf]
            simp only [List.length_cons]
            push_cast
            omega
          · show s.currentMessagesInPool - 1 ≤ maxMessagePool
            omega
          · intro m hm
            exact hclean m (by rw [hf]; exact List.mem_cons_of_mem r hm)
  | release q =>
      simp only [PoolState.step, ReleaseMessage]
      by_cases hge : maxMessagePool ≤ s.currentMessagesInPool
      · simp only [hge, if_pos]
        exact ⟨hlen, hcap, hclean⟩
      · simp only [hge, if_neg, not_false_iff]
        refine ⟨?_, ?_, ?_⟩
        · show s.currentMessagesInPool + 1 = _
          rw [hlen]
          simp only [List.length_cons]
          push_cast
          omega
        · show s.currentMessagesInPool + 1 ≤ maxMessagePool
          omega
        · intro m hm
          rcases List.mem_cons.mp hm with hm | hm
          · subst hm
            exact ⟨rfl, rfl, rfl, rfl⟩
          · exact hclean m hm

lemma poolInv_runOps_of (s : PoolState) (ops : List PoolOp) (h : PoolInv s) :
    PoolInv (runOps s ops) := by
  induction ops generalizing s with
  | nil => exact h
  | cons op rest ih =>
      exact ih (s.step op) (poolInv_step s op h)

lemma poolInv_runOps (ops : List PoolOp) : PoolInv (runOps initialPool ops) :=
  poolInv_runOps_of initialPool ops poolInv_initial

/-- Observable teardown events of a session: a close-hook running
(identified by a number), the owned socket being closed, and the Done
signal firing (the done channel closing, or the done context being
canceled for the first time). -/
inductive Event where
  | hookRun (h : Nat)
  | socketClose
  | doneFired
deriving DecidableEq, Repr

/-- Outcome of one iteration of the Run read loop: the transport read
fails, the processor fails, or the iteration succeeds and the loop
continues. Errors are abstracted to strings. -/
inductive LoopStep where
  | readErr (e : String)
  | procErr (e : String)
  | okStep
deriving DecidableEq, Repr

/-- The DTLS session state relevant to teardown: the close-hook list, the
socket-ownership flag, whether the session context has been canceled, and
whether the done channel has been closed. -/
structure DSession where
  onClose : List Nat
  closeSocket : Bool
  canceled : Bool
  doneClosed : Bool
deriving DecidableEq, Repr

/-- DTLS popOnClose: under the mutex, takes the hook list and leaves nil. -/
def DSession.popOnClose (s : DSession) : List Nat × DSession :=
  (s.onClose, { s with onClose := [] })

/-- DTLS Close: cancels the session context and returns nil; it runs no
hooks and does not touch the done channel. -/
def DSession.Close (s : DSession) : DSession × Option String :=
  ({ s with canceled := true }, none)

/-- DTLS close (lower-case teardown): pops and runs every hook in order,
closes the connection when the session owns the socket (returning the
socket-close error, abstracted as the sockErr argument), and closes the
done channel last (a deferred close of the done channel). The first
component is the emitted event trace in order. -/
def DSession.close (s : DSession) (sockErr : Option String) :
    List Event × DSession × Option String :=
  let p := s.popOnClose
  (p.1.map Event.hookRun ++ (if s.closeSocket then [Event.socketClose] else [])
      ++ [Event.doneFired],
   { p.2 with doneClosed := true },
   if s.closeSocket then sockErr else none)

/-- The DTLS read loop: returns the first error it hits; read errors are
wrapped with a message prefix (fmt.Errorf with percent-w). Returns none
when the given iterations are exhausted without an error, meaning the
loop would still be running. -/
def dtlsRunLoop : List LoopStep → Option String
  | [] => none
  | .readErr e :: _ => some ("cannot read from connection: " ++ e)
  | .procErr e :: _ => some e
  | .okStep :: rest => dtlsRunLoop rest

/-- DTLS Run: executes the read loop, then the deferred block: Close
(always returning nil) followed by close, each error kept only when no
earlier error is already set. Returns the emitted event trace, the final
session state, and the returned error. -/
def DSession.Run (s : DSession) (steps : List LoopStep) (sockErr : Option String) :
    List Event × DSession × Option String :=
  let loopErr := dtlsRunLoop steps
  let c1 := s.Close
  let err1 := match loopErr with
    | none => c1.2
    | some e => some e
  let c2 := c1.1.close sockErr
  let err2 := match err1 with
    | none => c2.2.2
    | some e => some e
  (c2.1, c2.2.1, err2)

/-- The UDP session state relevant to teardown. In the source the done
context is derived with WithCancel from the already cancelable session
context, so the Done signal fires as soon as either the session context
is canceled or doneCancel is called; both triggers are tracked. -/
structure USession where
  onClose : List Nat
  closeSocket : Bool
  canceled : Bool
  doneCancelCalled : Bool
deriving DecidableEq, Repr

/-- Whether the UDP done context is already canceled: its own cancel was
called, or the parent session context was canceled. -/
def USession.doneFired (s : USession) : Bool :=
  s.canceled || s.doneCancelCalled

/-- UDP Close: cancels the session context and returns nil. Because the
done context is a child of the session context, this fires the Done
signal if it has not fired yet; no hooks run here. -/
def USession.Close (s : USession) : List Event × USession × Option String :=
  ((if s.doneFired then [] else [Event.doneFired]),
   { s with canceled := true }, none)

/-- UDP popOnClose: under the mutex, takes the hook list and leaves nil. -/
def USession.popOnClose (s : USession) : List Nat × USession :=
  (s.onClose, { s with onClose := [] })

/-- UDP close (lower-case teardown): pops and runs every hook in order,
closes the connection when the session owns the socket, and calls
doneCancel last (deferred); the doneFired event is only emitted here if
the done context had not already been canceled through its parent. -/
def USession.close (s : USession) (sockErr : Option String) :
    List Event × USession × Option String :=
  let p := s.popOnClose
  (p.1.map Event.hookRun ++ (if s.closeSocket then [Event.socketClose] else [])
      ++ (if s.doneFired then [] else [Event.doneFired]),
   { p.2 with doneCancelCalled := true },
   if s.closeSocket then sockErr else none)

/-- The UDP read loop: returns the first error it hits, unwrapped; none
when the given iterations are exhausted without an error. -/
def udpRunLoop : List LoopStep → Option String
  | [] => none
  | .readErr e :: _ => some e
  | .procErr e :: _ => some e
  | .okStep :: rest => udpRunLoop rest

/-- UDP Run: executes the read loop, then the deferred block: Close
(cancels the session context, hence fires the done context) followed by
close; each error is kept only when no earlier error is already set. -/
def USession.Run (s : USession) (steps : List LoopStep) (sockErr : Option String) :
    List Event × USession × Option String :=
  let loopErr := udpRunLoop steps
  let c1 := s.Close
  let err1 := match loopErr with
    | none => c1.2.2
    | some e => some e
  let c2 := c1.2.1.close sockErr
  let err2 := match err1 with
    | none => c2.2.2
    | some e => some e
  (c1.1 ++ c2.1, c2.2.1, err2)

/-- Projection selecting the hook identifier of a hook-run event. -/
def evHook : Event → Option Nat
  | .hookRun h => some h
  | _ => none

lemma acquire_clean (ctx : Nat) (ops : List PoolOp) :
    ((AcquireMessage ctx (runOps initialPool ops)).1).messageID = none ∧
    ((AcquireMessage ctx (runOps initialPool ops)).1).isModified = false ∧
    ((AcquireMessage ctx (runOps initialPool ops)).1).base.modified = false := by
  obtain ⟨-, -, hclean⟩ := poolInv_runOps ops
  cases hf : (runOps initialPool ops).freeList with
  | nil => simp [AcquireMessage, hf, newMessage, BaseMessage.empty]
  | cons r rest =>
      have hr := hclean r (by rw [hf]; exact List.mem_cons_self r rest)
      obtain ⟨h1, h2, h3, -⟩ := hr
      simp [AcquireMessage, hf, h1, h2, h3]

/-- C1: for every datagram pooled Message whose message-ID has not been set
(freshly acquired from any reachable pool state, or after Reset),
MessageID fails loudly (the panic is modelled as none, never the default
some 0); when a message-ID has been set, MessageID returns exactly it. -/
theorem C1_messageID_unset_fails_loudly :
    (∀ (ctx : Nat) (ops : List PoolOp),
        ((AcquireMessage ctx (runOps initialPool ops)).1).MessageID = none) ∧
    (∀ m : Message, (m.Reset).MessageID = none) ∧
    (∀ (m : Message) (v : Nat), m.messageID = some v → m.MessageID = some v) ∧
    (∀ (m : Message) (v : Nat), (m.SetMessageID v).MessageID = some v) := by
  refine ⟨?_, ?_, ?_, ?_⟩
  · intro ctx ops
    have h := (acquire_clean ctx ops).1
    simpa [Message.MessageID] using h
  · intro m
    simp [Message.Reset, Message.MessageID]
  · intro m v h
    simpa [Message.MessageID] using h
  · intro m v
    simp [Message.SetMessageID, Message.MessageID]

/-- A sample message carrying an assigned message-ID. -/
def c1Sample : Message :=
  { base := BaseMessage.empty, messageID := some 5, typ := udpConfirmable,
    rawData := baselineBuf, rawMarshalData := baselineBuf, ctx := none, isModified := false }

/-- Witness for C1 at a concrete message with the id 5 assigned. -/
theorem C1_messageID_unset_fails_loudly_witness :
    c1Sample.MessageID = some 5 :=
  C1_messageID_unset_fails_loudly.2.2.1 c1Sample 5 rfl

/-- C2: over every sequential sequence of acquires and releases from the
initial pool state, the live-in-pool counter stays within 0 and the cap
10240, at most that many instances are retained on the free list, and a
release hitting the cap leaves the pool state unchanged (the instance is
discarded, not retained). -/
theorem C2_pool_counter_bounded :
    (∀ ops : List PoolOp,
        0 ≤ (runOps initialPool ops).currentMessagesInPool ∧
        (runOps initialPool ops).currentMessagesInPool ≤ maxMessagePool ∧
        ((runOps initialPool ops).freeList.length : Int) ≤ maxMessagePool) ∧
    (∀ (s : PoolState) (req : Message),
        maxMessagePool ≤ s.currentMessagesInPool → (ReleaseMessage s req).1 = s) := by
  refine ⟨?_, ?_⟩
  · intro ops
    obtain ⟨hlen, hcap, -⟩ := poolInv_runOps ops
    exact ⟨by rw [hlen]; exact Int.natCast_nonneg _, hcap, by rw [← hlen]; exact hcap⟩
  · intro s req h
    simp [ReleaseMessage, h]

/-- A pool state whose counter sits exactly at the cap. -/
def cFull : PoolState := { currentMessagesInPool := 10240, freeList := [] }

/-- Witness for C2: a release against the full pool changes nothing. -/
theorem C2_pool_counter_bounded_witness :
    (ReleaseMessage cFull (newMessage 7)).1 = cFull :=
  C2_pool_counter_bounded.2 cFull (newMessage 7) (by norm_num [cFull, maxMessagePool])

/-- A sample message in a fully populated, dirty state with an oversized
decode buffer and a small encode buffer. -/
def c4Sample : Message :=
  { base := { code := 5, token := some [1], options := [(11, [97])],
              body := some [2, 3], modified := true },
    messageID := some 7, typ := udpAcknowledgement,
    rawData := { len := 4096, cap := 4096 },
    rawMarshalData := { len := 100, cap := 100 },
    ctx := some 3, isModified := true }

/-- C4 counterexample: Reset does not clear the message type to its zero
value; at this concrete message the type after Reset is NonConfirmable,
whose 2-bit wire value is 1, not 0 (the zero value is Confirmable). -/
theorem C4_reset_counterexample : ¬ (c4Sample.Reset).typ = 0 := by decide

/-- C4 amended: after Reset the embedded container is empty, the
message-ID is unset, the message type is NonConfirmable (not the zero
value), each scratch buffer whose capacity exceeds the 2048-byte threshold
is shrunk to the 256-byte baseline while smaller buffers are left alone,
and the dirty flag is cleared. -/
theorem C4_reset_amended (m : Message) :
    (m.Reset).base = BaseMessage.empty ∧
    (m.Reset).messageID = none ∧
    (m.Reset).typ = udpNonConfirmable ∧
    (maxMessageBufferSize < m.rawData.cap → (m.Reset).rawData = baselineBuf) ∧
    (¬ maxMessageBufferSize < m.rawData.cap → (m.Reset).rawData = m.rawData) ∧
    (maxMessageBufferSize < m.rawMarshalData.cap → (m.Reset).rawMarshalData = baselineBuf) ∧
    (¬ maxMessageBufferSize < m.rawMarshalData.cap →
        (m.Reset).rawMarshalData = m.rawMarshalData) ∧
    (m.Reset).isModified = false := by
  refine ⟨rfl, rfl, rfl, ?_, ?_, ?_, ?_, rfl⟩ <;> intro h <;> simp [Message.Reset, h]

/-- Witness for C4 at the sample message: the oversized decode buffer is
shrunk to baseline, the small encode buffer is untouched, the type becomes
NonConfirmable. -/
theorem C4_reset_amended_witness :
    (c4Sample.Reset).rawData = baselineBuf ∧
    (c4Sample.Reset).rawMarshalData = c4Sample.rawMarshalData ∧
    (c4Sample.Reset).typ = udpNonConfirmable :=
  ⟨(C4_reset_amended c4Sample).2.2.2.1 (by decide),
   (C4_reset_amended c4Sample).2.2.2.2.2.2.1 (by decide),
   (C4_reset_amended c4Sample).2.2.1⟩

/-- C5: IsSeparate returns true exactly when the code is Empty, the token
is absent, the type is Acknowledgement, the option list is empty, and
there is no body; deviating in any one condition yields false. -/
theorem C5_isSeparate_iff (m : Message) :
    m.IsSeparate = true ↔
      (m.base.code = codesEmpty ∧ m.base.token = none ∧ m.typ = udpAcknowledgement ∧
        m.base.options = [] ∧ m.base.body = none) := by
  simp [Message.IsSeparate, List.length_eq_zero, and_assoc]

/-- C8: UpsertMessageID returns the already assigned id without
overwriting it when one is set, and otherwise assigns mid and returns it;
in either case a subsequent MessageID call succeeds and returns the value
UpsertMessageID returned. -/
theorem C8_upsertMessageID (m : Message) (mid : Nat) :
    (∀ v, m.messageID = some v →
        (m.UpsertMessageID mid).1 = v ∧ (m.UpsertMessageID mid).2 = m) ∧
    (m.messageID = none →
        (m.UpsertMessageID mid).1 = mid ∧
        (m.UpsertMessageID mid).2.messageID = some mid) ∧
    ((m.UpsertMessageID mid).2).MessageID = some (m.UpsertMessageID mid).1 := by
  refine ⟨?_, ?_, ?_⟩
  · intro v h
    simp [Message.UpsertMessageID, h]
  · intro h
    simp [Message.UpsertMessageID, h]
  · cases h : m.messageID with
    | none => simp [Message.UpsertMessageID, h, Message.MessageID]
    | some v => simp [Message.UpsertMessageID, h, Message.MessageID]

/-- Witness for C8: upserting on a message holding id 5 keeps 5 and does
not overwrite; upserting on a fresh message assigns the new id 9. -/
theorem C8_upsertMessageID_witness :
    ((c1Sample.UpsertMessageID 9).1 = 5 ∧ (c1Sample.UpsertMessageID 9).2 = c1Sample) ∧
    ((newMessage 0).UpsertMessageID 9).1 = 9 :=
  ⟨(C8_upsertMessageID c1Sample 9).1 5 rfl,
   ((C8_upsertMessageID (newMessage 0) 9).2.1 rfl).1⟩

/-- C9: a release while the counter is at or above the cap leaves the
discarded instance completely unchanged (no Reset, context kept) and the
pool state unchanged. -/
theorem C9_release_at_cap_leaves_instance_untouched (s : PoolState) (req : Message)
    (h : maxMessagePool ≤ s.currentMessagesInPool) :
    (ReleaseMessage s req).2 = req ∧ (ReleaseMessage s req).1 = s ∧
      ((ReleaseMessage s req).2).ctx = req.ctx := by
  simp [ReleaseMessage, h]

/-- Witness for C9 at the full pool and a fresh message. -/
theorem C9_release_at_cap_leaves_instance_untouched_witness :
    (ReleaseMessage cFull (newMessage 7)).2 = newMessage 7 ∧
      ((ReleaseMessage cFull (newMessage 7)).2).ctx = some 7 :=
  ⟨(C9_release_at_cap_leaves_instance_untouched cFull (newMessage 7)
      (by norm_num [cFull, maxMessagePool])).1,
   ((C9_release_at_cap_leaves_instance_untouched cFull (newMessage 7)
      (by norm_num [cFull, maxMessagePool])).2.2).trans rfl⟩

/-- C10: UpsertMessageID leaves both dirty flags untouched even when it
assigns an id, whereas SetMessageID always sets the local dirty flag; a
freshly acquired (from any reachable pool state) or freshly Reset message
still has IsModified false after UpsertMessageID assigns its id. -/
theorem C10_upsert_does_not_mark_dirty :
    (∀ (m : Message) (mid : Nat),
        ((m.UpsertMessageID mid).2).isModified = m.isModified ∧
        ((m.UpsertMessageID mid).2).base = m.base) ∧
    (∀ (m : Message) (mid : Nat), (m.SetMessageID mid).isModified = true) ∧
    (∀ (ctx : Nat) (ops : List PoolOp) (mid : Nat),
        (((AcquireMessage ctx (runOps initialPool ops)).1).UpsertMessageID mid).2.IsModified
          = false) ∧
    (∀ (m : Message) (mid : Nat),
        ((m.Reset).UpsertMessageID mid).2.IsModified = false) := by
  refine ⟨?_, ?_, ?_, ?_⟩
  · intro m mid
    cases h : m.messageID with
    | none => simp [Message.UpsertMessageID, h]
    | some v => simp [Message.UpsertMessageID, h]
  · intro m mid
    simp [Message.SetMessageID]
  · intro ctx ops mid
    obtain ⟨h1, h2, h3⟩ := acquire_clean ctx ops
    simp [Message.UpsertMessageID, h1, Message.IsModified, h2, h3]
  · intro m mid
    simp [Message.Reset, Message.UpsertMessageID, Message.IsModified,
      BaseMessage.Reset, BaseMessage.empty]

lemma filterMap_evHook_map (l : List Nat) : (l.map Event.hookRun).filterMap evHook = l := by
  induction l with
  | nil => rfl
  | cons a t ih => simp [evHook, ih]

lemma filterMap_evHook_sock (b : Bool) :
    ((if b = true then [Event.socketClose] else []).filterMap evHook) = [] := by
  cases b <;> simp [evHook]

lemma count_doneFired_map (l : List Nat) :
    (l.map Event.hookRun).count Event.doneFired = 0 := by
  induction l with
  | nil => rfl
  | cons a t ih => simp [List.count_cons, ih]

lemma count_doneFired_sock (b : Bool) :
    ((if b = true then [Event.socketClose] else []).count Event.doneFired) = 0 := by
  cases b <;> simp [List.count_cons]

lemma filterMap_evHook_comp (l : List Nat) :
    List.filterMap (evHook ∘ Event.hookRun) l = l := by
  induction l with
  | nil => rfl
  | cons a t ih => simp [evHook, Function.comp, ih]

lemma filterMap_evHook_done (c : Prop) [Decidable c] :
    (if c then ([] : List Event) else [Event.doneFired]).filterMap evHook = [] := by
  split <;> simp [evHook]

/-- C3: hook draining and done signalling are exactly-once. popOnClose (in
both session variants) hands out the hook list and leaves it empty, so a
second drain yields nothing; Close (either variant) runs no hooks and
leaves the hook list alone (DTLS Close also leaves the done channel
alone); the done-fire event is emitted by UDP Close only when the done
context has not already fired; and any complete Run emits every registered
hook exactly once, the done signal exactly once (for UDP: from a session
whose done context has not fired yet), and leaves the hook list empty. -/
theorem C3_close_hooks_exactly_once :
    (∀ s : DSession,
        s.popOnClose.1 = s.onClose ∧ s.popOnClose.2.onClose = [] ∧
        s.popOnClose.2.popOnClose.1 = []) ∧
    (∀ s : USession,
        s.popOnClose.1 = s.onClose ∧ s.popOnClose.2.onClose = [] ∧
        s.popOnClose.2.popOnClose.1 = []) ∧
    (∀ s : DSession, (s.Close).1.onClose = s.onClose ∧ (s.Close).1.doneClosed = s.doneClosed) ∧
    (∀ s : USession, (s.Close).2.1.onClose = s.onClose) ∧
    (∀ s : USession, (s.Close).1 = if s.doneFired then [] else [Event.doneFired]) ∧
    (∀ (s : DSession) (steps : List LoopStep) (sockErr : Option String),
        (s.Run steps sockErr).1.filterMap evHook = s.onClose ∧
        (s.Run steps sockErr).1.count Event.doneFired = 1 ∧
        (s.Run steps sockErr).2.1.onClose = []) ∧
    (∀ (s : USession) (steps : List LoopStep) (sockErr : Option String),
        (s.Run steps sockErr).1.filterMap evHook = s.onClose ∧
        (s.doneFired = false → (s.Run steps sockErr).1.count Event.doneFired = 1) ∧
        (s.Run steps sockErr).2.1.onClose = []) := by
  refine ⟨?_, ?_, ?_, ?_, ?_, ?_, ?_⟩
  · intro s
    exact ⟨rfl, rfl, rfl⟩
  · intro s
    exact ⟨rfl, rfl, rfl⟩
  · intro s
    exact ⟨rfl, rfl⟩
  · intro s
    rfl
  · intro s
    rfl
  · intro s steps sockErr
    refine ⟨?_, ?_, ?_⟩
    · simp [DSession.Run, DSession.Close, DSession.close, DSession.popOnClose,
        List.filterMap_append, filterMap_evHook_map, filterMap_evHook_comp,
        filterMap_evHook_sock, evHook]
    · simp [DSession.Run, DSession.Close, DSession.close, DSession.popOnClose,
        count_doneFired_map, count_doneFired_sock, List.count_cons]
    · rfl
  · intro s steps sockErr
    refine ⟨?_, ?_, ?_⟩
    · simp [USession.Run, USession.Close, USession.close, USession.popOnClose,
        List.filterMap_append, filterMap_evHook_map, filterMap_evHook_comp,
        filterMap_evHook_sock, filterMap_evHook_done, evHook]
    · intro hd
      have h12 : s.canceled = false ∧ s.doneCancelCalled = false := by
        simpa [USession.doneFired] using hd
      simp [USession.Run, USession.Close, USession.close, USession.popOnClose,
        USession.doneFired, h12.1, h12.2, count_doneFired_map, count_doneFired_sock,
        List.count_cons]
    · rfl

/-- A fresh UDP session owning its socket with one registered hook. -/
def c3USample : USession :=
  { onClose := [3], closeSocket := true, canceled := false, doneCancelCalled := false }

/-- Witness for C3: a concrete fresh UDP Run emits the done signal exactly
once and each hook exactly once. -/
theorem C3_close_hooks_exactly_once_witness :
    (c3USample.Run [LoopStep.readErr "e"] none).1.count Event.doneFired = 1 ∧
    (c3USample.Run [LoopStep.readErr "e"] none).1.filterMap evHook = [3] :=
  ⟨(C3_close_hooks_exactly_once.2.2.2.2.2.2 c3USample [LoopStep.readErr "e"] none).2.1 rfl,
   (C3_close_hooks_exactly_once.2.2.2.2.2.2 c3USample [LoopStep.readErr "e"] none).1⟩

/-- A fresh UDP session owning its socket with one registered hook,
exercised on the teardown path triggered by a transport read error. -/
def c6Sample : USession :=
  { onClose := [0], closeSocket := true, canceled := false, doneCancelCalled := false }

/-- C6, evaluated at the failing input: in the UDP session the done
context is derived from the cancelable session context, so when Run tears
down (deferred Close, then close), the Done signal fires before the
close-hooks run and before the owned socket closes — the emitted trace
starts with the done-fire event. The DTLS session, by contrast, signals
done strictly last, after all hooks in insertion order and the conditional
socket close, on every teardown path. -/
theorem C6_udp_done_fires_before_hooks :
    (c6Sample.Run [LoopStep.readErr "read failed"] none).1
      = [Event.doneFired, Event.hookRun 0, Event.socketClose] ∧
    (∀ (s : DSession) (steps : List LoopStep) (sockErr : Option String),
        (s.Run steps sockErr).1
          = s.onClose.map Event.hookRun
            ++ (if s.closeSocket then [Event.socketClose] else [])
            ++ [Event.doneFired]) := by
  constructor
  · rfl
  · intro s steps sockErr
    rfl

/-- C7: the error returned by Run. A read or processor error from the loop
is returned as-is (for the DTLS read path: wrapped with the
cannot-read-from-connection prefix, preserving the original error); an
error from the close sequence (the socket close, which only happens when
the session owns the socket) becomes the returned error only when the loop
produced no earlier error. -/
theorem C7_run_error_precedence :
    (∀ (s : USession) (steps : List LoopStep) (sockErr : Option String) (e : String),
        udpRunLoop steps = some e → (s.Run steps sockErr).2.2 = some e) ∧
    (∀ (s : USession) (steps : List LoopStep) (sockErr : Option String),
        udpRunLoop steps = none →
          (s.Run steps sockErr).2.2 = if s.closeSocket then sockErr else none) ∧
    (∀ (s : DSession) (steps : List LoopStep) (sockErr : Option String) (e : String),
        dtlsRunLoop steps = some e → (s.Run steps sockErr).2.2 = some e) ∧
    (∀ (s : DSession) (steps : List LoopStep) (sockErr : Option String),
        dtlsRunLoop steps = none →
          (s.Run steps sockErr).2.2 = if s.closeSocket then sockErr else none) ∧
    (∀ (s : USession) (rest : List LoopStep) (sockErr : Option String) (e : String),
        (s.Run (LoopStep.readErr e :: rest) sockErr).2.2 = some e) ∧
    (∀ (s : DSession) (rest : List LoopStep) (sockErr : Option String) (e : String),
        (s.Run (LoopStep.readErr e :: rest) sockErr).2.2
          = some ("cannot read from connection: " ++ e)) := by
  refine ⟨?_, ?_, ?_, ?_, ?_, ?_⟩
  · intro s steps sockErr e h
    simp [USession.Run, USession.Close, USession.close, h]
  · intro s steps sockErr h
    cases hc : s.closeSocket <;>
      simp [USession.Run, USession.Close, USession.close, USession.popOnClose, h, hc]
  · intro s steps sockErr e h
    simp [DSession.Run, DSession.Close, DSession.close, h]
  · intro s steps sockErr h
    cases hc : s.closeSocket <;>
      simp [DSession.Run, DSession.Close, DSession.close, DSession.popOnClose, h, hc]
  · intro s rest sockErr e
    simp [USession.Run, USession.Close, USession.close, udpRunLoop]
  · intro s rest sockErr e
    simp [DSession.Run, DSession.Close, DSession.close, dtlsRunLoop]

/-- A borrowed-socket UDP session with no hooks. -/
def c7Borrowed : USession :=
  { onClose := [], closeSocket := false, canceled := false, doneCancelCalled := false }

/-- A socket-owning UDP session with no hooks. -/
def c7Owner : USession :=
  { onClose := [], closeSocket := true, canceled := false, doneCancelCalled := false }

/-- Witness for C7: a processor error dominates a socket-close error; with
no loop error the socket-close error of an owning session is returned. -/
theorem C7_run_error_precedence_witness :
    (c7Owner.Run [LoopStep.procErr "boom"] (some "sockfail")).2.2 = some "boom" ∧
    (c7Owner.Run [] (some "sockfail")).2.2 = some "sockfail" ∧
    (c7Borrowed.Run [] (some "sockfail")).2.2 = none := by
  refine ⟨?_, ?_, ?_⟩
  · exact C7_run_error_precedence.1 c7Owner [LoopStep.procErr "boom"] (some "sockfail")
      "boom" rfl
  · have h := C7_run_error_precedence.2.1 c7Owner [] (some "sockfail") rfl
    simpa [c7Owner] using h
  · have h := C7_run_error_precedence.2.1 c7Borrowed [] (some "sockfail") rfl
    simpa [c7Borrowed] using h
